import Mathlib

/-!
Shallow embedding of qdirstat's `src/src-unported/ExcludeRules.h`
(namespace QDirStat): exclude rules (a regular-expression pattern plus an
enabled flag) and an owning, ordered rule set with a stateful iteration
cursor, backed by a Qt3 `QPtrList`.

Only the header is present in the repository excerpt; the bodies of the
constructors, `ExcludeRule::match`, `ExcludeRules::match` and
`ExcludeRules::matchingRule` live in `ExcludeRules.cpp`, which is not part
of the excerpt.  Those are modelled from the specification, as marked on
each definition.  The inline member functions of the header (`regexp`,
`setRegexp`, `isEnabled`, `enable`, `first`, `next`, `current`, `clear`)
are translated directly from the header's code.  The external Qt3 classes
`QString`, `QRegExp` and `QPtrList` are modelled from their documented
Qt3 semantics.
-/

namespace QDirStat

/-- Qt3 `QString`, modelled as a list of characters. -/
abbrev QString := List Char

/-- Qt3 `QRegExp`, an external library class, reduced to the engine
primitive the component relies on: `matchesAt t i` tells whether the
pattern has a match in text `t` that begins at position `i`.  The regular
expression language itself is delegated to the engine and left abstract. -/
structure QRegExp where
  matchesAt : QString → Nat → Bool

/-- Qt3 `QRegExp::search`: the position of the first match of the pattern
in `t` (scanning start positions left to right, including the position
just past the last character, where e.g. an empty match can occur), or
`-1` if the pattern matches nowhere in `t`. -/
def QRegExp.search (r : QRegExp) (t : QString) : Int :=
  match (List.range (t.length + 1)).find? (fun i => r.matchesAt t i) with
  | some i => Int.ofNat i
  | none => -1

/-- `ExcludeRule`: one single exclude rule, a regular expression plus an
enabled flag (fields `_regexp` and `_enabled` of the C++ class). -/
structure ExcludeRule where
  _regexp : QRegExp
  _enabled : Bool

/-- Modelled from the spec: the `ExcludeRule( const QRegExp & )`
constructor (its body is in `ExcludeRules.cpp`, not in the excerpt); new
rules default to enabled. -/
def ExcludeRule.make (regexp : QRegExp) : ExcludeRule :=
  { _regexp := regexp, _enabled := true }

/-- `ExcludeRule::regexp()`: returns this rule's regular expression. -/
def ExcludeRule.regexp (r : ExcludeRule) : QRegExp :=
  r._regexp

/-- `ExcludeRule::setRegexp()`: changes this rule's regular expression. -/
def ExcludeRule.setRegexp (r : ExcludeRule) (regexp : QRegExp) : ExcludeRule :=
  { r with _regexp := regexp }

/-- `ExcludeRule::isEnabled()`: checks if this rule is enabled. -/
def ExcludeRule.isEnabled (r : ExcludeRule) : Bool :=
  r._enabled

/-- `ExcludeRule::enable( bool enable = true )`: enables or disables this
rule; the C++ default argument `true` is passed explicitly here. -/
def ExcludeRule.enable (r : ExcludeRule) (e : Bool) : ExcludeRule :=
  { r with _enabled := e }

/-- Modelled from the spec: `ExcludeRule::match( const QString & )` (its
body is in `ExcludeRules.cpp`, not in the excerpt).  Returns true iff the
rule is enabled and the pattern matches anywhere in the text (regex search
semantics); returns false immediately if disabled. -/
def ExcludeRule.matchText (r : ExcludeRule) (text : QString) : Bool :=
  if r._enabled then decide (0 ≤ r._regexp.search text) else false

/-- Qt3 `QPtrList`, an external library container, reduced to what
`ExcludeRules` uses: an ordered list of items plus the internal
current-item cursor (`none` models the null current pointer). -/
structure QPtrList (α : Type) where
  items : List α
  cur : Option Nat

/-- Qt3 `QPtrList::first()`: makes the first item current and returns it,
or returns null on an empty list (whose current pointer is null). -/
def QPtrList.first (l : QPtrList α) : Option α × QPtrList α :=
  match l.items with
  | [] => (none, { l with cur := none })
  | a :: _ => (some a, { l with cur := some 0 })

/-- Qt3 `QPtrList::next()`: makes the item after the current item current
and returns it; if the current item was the last item or null, returns
null, the current pointer becoming null. -/
def QPtrList.next (l : QPtrList α) : Option α × QPtrList α :=
  match l.cur with
  | none => (none, l)
  | some i =>
    if h : i + 1 < l.items.length then
      (some (l.items.get ⟨i + 1, h⟩), { l with cur := some (i + 1) })
    else
      (none, { l with cur := none })

/-- Qt3 `QPtrList::current()`: returns the current item, or null if there
is none; does not move the cursor. -/
def QPtrList.current (l : QPtrList α) : Option α :=
  match l.cur with
  | none => none
  | some i => l.items[i]?

/-- Qt3 `QPtrList::append()`: inserts the item at the end of the list and
makes it the current item. -/
def QPtrList.append (l : QPtrList α) (a : α) : QPtrList α :=
  { items := l.items ++ [a], cur := some l.items.length }

/-- Qt3 `QPtrList::clear()`: removes all items; the current pointer
becomes null. -/
def QPtrList.clear (_l : QPtrList α) : QPtrList α :=
  { items := [], cur := none }

/-- `ExcludeRules`: container for multiple exclude rules (field `_rules`
of the C++ class). -/
structure ExcludeRules where
  _rules : QPtrList ExcludeRule

/-- Modelled from the spec: the `ExcludeRules()` constructor (its body is
in `ExcludeRules.cpp`, not in the excerpt); a fresh rule set is empty. -/
def ExcludeRules.make : ExcludeRules :=
  ⟨{ items := [], cur := none }⟩

/-- Modelled from the spec: `ExcludeRules::add()` (its body is in
`ExcludeRules.cpp`, not in the excerpt); appends a rule to the end of the
ordered sequence (via `QPtrList::append`, which also moves the cursor). -/
def ExcludeRules.add (s : ExcludeRules) (r : ExcludeRule) : ExcludeRules :=
  ⟨s._rules.append r⟩

/-- Index of the first rule in the list (in insertion order) whose
`matchText` accepts `text`, or `none` when no rule matches.  This is the
functional core of the cursor-based first/next scan loop that
`ExcludeRules::match` and `ExcludeRules::matchingRule` run. -/
def findMatchIdx (rules : List ExcludeRule) (text : QString) : Option Nat :=
  match rules with
  | [] => none
  | r :: rs =>
    if r.matchText text then some 0
    else (findMatchIdx rs text).map (fun j => j + 1)

/-- Modelled from the spec: `ExcludeRules::match( const QString & )` (its
body is in `ExcludeRules.cpp`, not in the excerpt).  Iterates the sequence
in insertion order with the internal cursor (first/next) and returns true
on the first enabled rule whose match is true, leaving the cursor on that
rule; returns false when no rule matches, the scan having run the cursor
past the end (null). -/
def ExcludeRules.matchText (s : ExcludeRules) (text : QString) : Bool × ExcludeRules :=
  match findMatchIdx s._rules.items text with
  | some i => (true, ⟨{ s._rules with cur := some i }⟩)
  | none => (false, ⟨{ s._rules with cur := none }⟩)

/-- Modelled from the spec: `ExcludeRules::matchingRule( const QString & )`
(its body is in `ExcludeRules.cpp`, not in the excerpt).  Like `match`,
but returns the first matching enabled rule itself, or null if none
matches. -/
def ExcludeRules.matchingRule (s : ExcludeRules) (text : QString) :
    Option ExcludeRule × ExcludeRules :=
  match findMatchIdx s._rules.items text with
  | some i => (s._rules.items[i]?, ⟨{ s._rules with cur := some i }⟩)
  | none => (none, ⟨{ s._rules with cur := none }⟩)

/-- `ExcludeRules::first()`: returns the first exclude rule of this rule
set or 0 if there is none (delegates to `QPtrList::first`). -/
def ExcludeRules.first (s : ExcludeRules) : Option ExcludeRule × ExcludeRules :=
  match s._rules.first with
  | (r, l) => (r, ⟨l⟩)

/-- `ExcludeRules::next()`: returns the next exclude rule of this rule set
or 0 if there is no more (delegates to `QPtrList::next`). -/
def ExcludeRules.next (s : ExcludeRules) : Option ExcludeRule × ExcludeRules :=
  match s._rules.next with
  | (r, l) => (r, ⟨l⟩)

/-- `ExcludeRules::current()`: returns the current exclude rule of this
rule set or 0 if there is none (delegates to `QPtrList::current`). -/
def ExcludeRules.current (s : ExcludeRules) : Option ExcludeRule :=
  s._rules.current

/-- `ExcludeRules::clear()`: clears all exclude rules (delegates to
`QPtrList::clear`). -/
def ExcludeRules.clear (s : ExcludeRules) : ExcludeRules :=
  ⟨s._rules.clear⟩

/-- A concrete pattern used to exercise the definitions: matches the text
at position `i` exactly when the two characters starting there are "ab". -/
def sampleRegexp : QRegExp :=
  ⟨fun t i => decide ((t.drop i).take 2 = ['a', 'b'])⟩

/-- A concrete pattern that has a match at every position of every text. -/
def alwaysRegexp : QRegExp :=
  ⟨fun _ _ => true⟩

/-- A concrete two-rule set (a disabled rule followed by an enabled one)
whose cursor sits on the first rule, as after a call to `first()`. -/
def demoSet : ExcludeRules :=
  ⟨{ items := [(ExcludeRule.make alwaysRegexp).enable false,
               ExcludeRule.make alwaysRegexp],
     cur := some 0 }⟩

/-! ## Helper lemmas -/

lemma ExcludeRule.matchText_eq (r : ExcludeRule) (t : QString) :
    r.matchText t = (r.isEnabled && decide (0 ≤ r._regexp.search t)) := by
  cases h : r._enabled <;>
    simp [ExcludeRule.matchText, ExcludeRule.isEnabled, h]

lemma ExcludeRule.isEnabled_of_matchText {r : ExcludeRule} {t : QString}
    (h : r.matchText t = true) : r.isEnabled = true := by
  rw [ExcludeRule.matchText_eq] at h
  exact (Bool.and_eq_true_iff.mp h).1

lemma ExcludeRule.enabled_and_matchText (r : ExcludeRule) (t : QString) :
    (r.isEnabled && r.matchText t) = r.matchText t := by
  rw [ExcludeRule.matchText_eq]
  cases h : r.isEnabled <;> simp

lemma findMatchIdx_eq_none {rules : List ExcludeRule} {t : QString} :
    findMatchIdx rules t = none ↔ ∀ r ∈ rules, r.matchText t = false := by
  induction rules with
  | nil => simp [findMatchIdx]
  | cons r rs ih =>
    cases h : r.matchText t with
    | true =>
      simp only [findMatchIdx, h, if_true]
      constructor
      · intro hc
        exact absurd hc (by simp)
      · intro hall
        have := hall r (by simp)
        simp [h] at this
    | false =>
      simp [findMatchIdx, h, ih]

lemma findMatchIdx_bind_getElem (rules : List ExcludeRule) (t : QString) :
    ((findMatchIdx rules t).bind fun i => rules[i]?) =
      rules.find? (fun r => r.matchText t) := by
  induction rules with
  | nil => simp [findMatchIdx]
  | cons r rs ih =>
    cases h : r.matchText t with
    | true => simp [findMatchIdx, h, List.find?_cons]
    | false =>
      simp only [findMatchIdx, h, if_false, List.find?_cons]
      rw [← ih]
      cases hf : findMatchIdx rs t <;> simp [hf]

lemma ExcludeRules.matchText_fst (s : ExcludeRules) (t : QString) :
    (s.matchText t).fst = (findMatchIdx s._rules.items t).isSome := by
  unfold ExcludeRules.matchText
  cases hf : findMatchIdx s._rules.items t <;> simp [hf]

lemma ExcludeRules.matchText_snd_items (s : ExcludeRules) (t : QString) :
    ((s.matchText t).snd)._rules.items = s._rules.items := by
  unfold ExcludeRules.matchText
  cases hf : findMatchIdx s._rules.items t <;> simp [hf]

lemma ExcludeRules.matchingRule_fst (s : ExcludeRules) (t : QString) :
    (s.matchingRule t).fst =
      ((findMatchIdx s._rules.items t).bind fun i => s._rules.items[i]?) := by
  unfold ExcludeRules.matchingRule
  cases hf : findMatchIdx s._rules.items t <;> simp [hf]

lemma ExcludeRules.matchingRule_snd_items (s : ExcludeRules) (t : QString) :
    ((s.matchingRule t).snd)._rules.items = s._rules.items := by
  unfold ExcludeRules.matchingRule
  cases hf : findMatchIdx s._rules.items t <;> simp [hf]

/-! ## Claim theorems -/

/-- C1: for every rule set and text, `ExcludeRules::match` returns true
iff at least one enabled rule in the set matches the text; the scan runs
in insertion order and stops at the first enabled rule that matches (the
cursor is left on exactly the first matching rule, i.e. on
`find?` of the sequence, and on null when none matches). -/
theorem ruleSet_match_iff_some_enabled_matches (s : ExcludeRules) (t : QString) :
    ((s.matchText t).fst = true ↔
      ∃ r ∈ s._rules.items, r.isEnabled = true ∧ r.matchText t = true)
    ∧ ((s.matchText t).snd).current =
        s._rules.items.find? (fun r => r.matchText t) := by
  constructor
  · rw [ExcludeRules.matchText_fst, Option.isSome_iff_ne_none, Ne,
        findMatchIdx_eq_none]
    constructor
    · intro hne
      by_contra hnex
      push_neg at hnex
      refine hne (fun r hr => ?_)
      cases hm : r.matchText t with
      | false => rfl
      | true =>
        have h1 := ExcludeRule.isEnabled_of_matchText hm
        exact absurd hm (hnex r hr h1)
    · rintro ⟨r, hr, _, hm⟩ hall
      have hc := hall r hr
      rw [hm] at hc
      exact Bool.noConfusion hc
  · rw [← findMatchIdx_bind_getElem]
    unfold ExcludeRules.matchText
    cases hf : findMatchIdx s._rules.items t <;>
      simp [hf, ExcludeRules.current, QPtrList.current]

/-- C2: `ExcludeRules::matchingRule` returns the lowest-indexed (first in
insertion order) enabled rule whose pattern matches the text, and null
(`none`) when no enabled rule matches. -/
theorem matchingRule_eq_first_enabled_match (s : ExcludeRules) (t : QString) :
    (s.matchingRule t).fst =
      s._rules.items.find? (fun r => r.isEnabled && r.matchText t) := by
  have hp : (fun r : ExcludeRule => r.isEnabled && r.matchText t) =
      (fun r : ExcludeRule => r.matchText t) := by
    funext r
    exact ExcludeRule.enabled_and_matchText r t
  rw [hp, ExcludeRules.matchingRule_fst, findMatchIdx_bind_getElem]

/-- C3: a disabled rule never matches any text, regardless of its
pattern's content. -/
theorem disabled_rule_never_matches (r : ExcludeRule) (t : QString)
    (h : r.isEnabled = false) : r.matchText t = false := by
  rw [ExcludeRule.matchText_eq, h]
  simp

/-- Witness for C3: an explicitly disabled rule whose pattern would match
everything still rejects the text "a". -/
theorem disabled_rule_never_matches_witness :
    ((ExcludeRule.make alwaysRegexp).enable false).isEnabled = false
    ∧ ((ExcludeRule.make alwaysRegexp).enable false).matchText ['a'] = false :=
  ⟨rfl, disabled_rule_never_matches ((ExcludeRule.make alwaysRegexp).enable false) ['a'] rfl⟩

/-- C4: an enabled rule matches a text iff its pattern matches somewhere
within the text (regex search semantics: a match beginning at some
position of the text, no full-string anchoring). -/
theorem enabled_rule_match_iff_search (r : ExcludeRule) (t : QString)
    (h : r.isEnabled = true) :
    r.matchText t = true ↔
      ∃ i, i ≤ t.length ∧ r.regexp.matchesAt t i = true := by
  rw [ExcludeRule.matchText_eq, h, Bool.true_and, decide_eq_true_iff]
  simp only [ExcludeRule.regexp]
  unfold QRegExp.search
  cases hf : (List.range (t.length + 1)).find? (fun i => r._regexp.matchesAt t i) with
  | some i =>
    simp only [hf]
    constructor
    · intro _
      refine ⟨i, ?_, List.find?_some hf⟩
      exact Nat.lt_succ_iff.mp (List.mem_range.mp (List.mem_of_find?_eq_some hf))
    · intro _
      exact Int.ofNat_nonneg i
  | none =>
    simp only [hf]
    constructor
    · intro hc
      exact absurd hc (by decide)
    · rintro ⟨i, hi, hm⟩
      exact absurd hm
        (List.find?_eq_none.mp hf i (List.mem_range.mpr (Nat.lt_succ_of_le hi)))

/-- Witness for C4: a freshly made (hence enabled) rule whose pattern
matches "ab" at a position, tested on the text "xab". -/
theorem enabled_rule_match_iff_search_witness :
    (ExcludeRule.make sampleRegexp).isEnabled = true
    ∧ ((ExcludeRule.make sampleRegexp).matchText ['x', 'a', 'b'] = true ↔
        ∃ i, i ≤ (['x', 'a', 'b'] : QString).length ∧
          (ExcludeRule.make sampleRegexp).regexp.matchesAt ['x', 'a', 'b'] i = true) :=
  ⟨rfl, enabled_rule_match_iff_search (ExcludeRule.make sampleRegexp) ['x', 'a', 'b'] rfl⟩

/-- C5: matching on an empty rule set returns false for every text, and
matching after `clear()` on any rule set returns false for every text. -/
theorem empty_or_cleared_ruleSet_never_matches :
    (∀ t : QString, ((ExcludeRules.make).matchText t).fst = false)
    ∧ ∀ (s : ExcludeRules) (t : QString), ((s.clear).matchText t).fst = false :=
  ⟨fun _ => rfl, fun _ _ => rfl⟩

/-- C6: `ExcludeRules::match` has a side effect on the iteration cursor:
there is a rule-set state and a text for which `current()` after the call
differs from `current()` before it. -/
theorem match_moves_current_cursor :
    ∃ (s : ExcludeRules) (t : QString),
      ((s.matchText t).snd).current ≠ s.current := by
  refine ⟨demoSet, [], fun h => ?_⟩
  have hafter :
      Option.map ExcludeRule.isEnabled (((demoSet.matchText ([] : QString)).snd).current)
        = some true := rfl
  have hbefore :
      Option.map ExcludeRule.isEnabled demoSet.current = some false := rfl
  rw [h, hbefore] at hafter
  exact Option.noConfusion hafter fun hh => Bool.noConfusion hh

/-- C7: `first()` returns the head rule (null on an empty set) and leaves
the cursor on it; `next()` advances the cursor and returns the rule there,
returning null when the cursor runs past the end (and when it already was
null); `current()` re-reads the cursor position without advancing and is
null when the cursor is past the end or the set is empty. -/
theorem first_next_current_semantics (s : ExcludeRules) :
    (s.first).fst = s._rules.items.head?
    ∧ ((s.first).snd).current = s._rules.items.head?
    ∧ (s.next).fst = (s._rules.cur.bind fun i => s._rules.items[i + 1]?)
    ∧ ((s.next).snd).current = (s.next).fst
    ∧ s.current = (s._rules.cur.bind fun i => s._rules.items[i]?) := by
  obtain ⟨⟨items, cur⟩⟩ := s
  refine ⟨?_, ?_, ?_, ?_, ?_⟩
  · cases items <;> rfl
  · cases items <;>
      simp [ExcludeRules.first, QPtrList.first, ExcludeRules.current,
            QPtrList.current]
  · cases cur with
    | none => rfl
    | some i =>
      by_cases h : i + 1 < items.length
      · simp [ExcludeRules.next, QPtrList.next, h, List.getElem?_eq_getElem]
      · simp [ExcludeRules.next, QPtrList.next, h,
              List.getElem?_eq_none (Nat.le_of_not_lt h)]
  · cases cur with
    | none => rfl
    | some i =>
      by_cases h : i + 1 < items.length
      · simp [ExcludeRules.next, QPtrList.next, h, ExcludeRules.current,
              QPtrList.current, List.getElem?_eq_getElem]
      · simp [ExcludeRules.next, QPtrList.next, h, ExcludeRules.current,
              QPtrList.current]
  · cases cur <;> rfl

/-- C8: with the rules unchanged, repeated calls of `match` and
`matchingRule` on the same text return the same boolean and the same rule,
in any interleaving, even though the first call moved the cursor. -/
theorem match_and_matchingRule_idempotent (s : ExcludeRules) (t : QString) :
    (((s.matchText t).snd).matchText t).fst = (s.matchText t).fst
    ∧ (((s.matchingRule t).snd).matchingRule t).fst = (s.matchingRule t).fst
    ∧ (((s.matchText t).snd).matchingRule t).fst = (s.matchingRule t).fst
    ∧ (((s.matchingRule t).snd).matchText t).fst = (s.matchText t).fst := by
  refine ⟨?_, ?_, ?_, ?_⟩
  · rw [ExcludeRules.matchText_fst, ExcludeRules.matchText_fst,
        ExcludeRules.matchText_snd_items]
  · rw [ExcludeRules.matchingRule_fst, ExcludeRules.matchingRule_fst,
        ExcludeRules.matchingRule_snd_items]
  · rw [ExcludeRules.matchingRule_fst, ExcludeRules.matchingRule_fst,
        ExcludeRules.matchText_snd_items]
  · rw [ExcludeRules.matchText_fst, ExcludeRules.matchText_fst,
        ExcludeRules.matchingRule_snd_items]

/-- C9: `setRegexp` replaces the rule's regular expression and leaves the
enabled/disabled state unchanged. -/
theorem setRegexp_replaces_pattern_preserves_enabled (r : ExcludeRule) (p : QRegExp) :
    (r.setRegexp p).regexp = p ∧ (r.setRegexp p).isEnabled = r.isEnabled :=
  ⟨rfl, rfl⟩

/-- C10: a newly constructed rule is enabled by default, and
`enable(flag)` sets the enabled state to exactly `flag` (the C++ default
argument being `flag = true`). -/
theorem new_rule_enabled_by_default_and_enable_sets_flag :
    (∀ p : QRegExp, (ExcludeRule.make p).isEnabled = true)
    ∧ ∀ (r : ExcludeRule) (f : Bool), (r.enable f).isEnabled = f :=
  ⟨fun _ => rfl, fun _ _ => rfl⟩

end QDirStat
